import Mathlib

/-!
Verification of the async request adapter and polling helpers of
`eth_client_utils` (files `client.py` and `utils.py`).

The embedding models:
* the Correlation Registry (`results` dict) as an association list keyed by
  correlation ids, with Python-dict semantics (`publish` = `results[id] = v`,
  `eraseKey` = `results.pop(id)`);
* the Dispatch Worker loop `BaseClient.process_requests` as a fold over the
  queued requests, where `runTransport` models the `try/except` around
  `self._make_request`;
* the polling loop of `BaseClient.make_request` (async branch) as a recursion
  over a finite trace of `(clock reading, registry snapshot)` pairs — one pair
  per iteration of `while time.time() - start < self.async_timeout`;
* `wait_for_block` / `wait_for_transaction` of `utils.py` as recursions over a
  finite trace of clock readings, with an explicit counter of calls made to the
  height / receipt operation;
* `get_transaction_params` of `utils.py` directly as a pure function;
* the `default_from_address` coinbase cache of `client.py` with its exact
  control flow (including the fact that `_coinbase_cache_til` is never
  assigned a non-`None` value anywhere in the code, and that the expression
  `time.time - self._coinbase_cache_til` references the function object
  `time.time` without calling it, a `TypeError` in Python).

A transport stub is a function `μ → π → Except ε ρ`: `.ok` models a returned
value, `.error` models a raised exception.
-/

universe u v

/-- Outcome of one dispatched request, as stored in the `results` registry:
`BaseClient.process_requests` stores either the transport's return value or
the caught exception object. -/
inductive Outcome (ε ρ : Type) : Type where
  | success (r : ρ)
  | failure (e : ε)
deriving DecidableEq, Repr

/-- Result of one `make_request` call as observed by the caller:
a returned value, a re-raised transport exception (the very object the worker
captured), or the `ValueError("Timeout waiting for {id}")` timeout. -/
inductive MRResult (ε ρ : Type) : Type where
  | ok (r : ρ)
  | raised (e : ε)
  | timeoutErr (id : Nat)
deriving DecidableEq, Repr

/-- How the façade consumes a registry entry (`make_request` lines 48-51):
`raise result` for a stored exception, `return result` otherwise. -/
def MRResult.ofOutcome : Outcome ε ρ → MRResult ε ρ
  | .success r => .ok r
  | .failure e => .raised e

/-- The observable behaviour of a direct synchronous transport call
(`self._make_request(*args, **kwargs)` on the caller's own thread). -/
def MRResult.ofExcept : Except ε ρ → MRResult ε ρ
  | .ok r => .ok r
  | .error e => .raised e

/-- The Correlation Registry `self.results`: a map from correlation id to
completed outcome. -/
abbrev Registry (ε ρ : Type) : Type := List (Nat × Outcome ε ρ)

/-- Dict lookup `self.results[request_id]` / membership `request_id in
self.results` (`none` = key absent). -/
def lookupReg (id : Nat) : Registry ε ρ → Option (Outcome ε ρ)
  | [] => none
  | (k, v) :: rest => if k = id then some v else lookupReg id rest

/-- Removal of a key, as done by `self.results.pop(request_id)`. -/
def eraseKey (id : Nat) : Registry ε ρ → Registry ε ρ
  | [] => []
  | (k, v) :: rest => if k = id then eraseKey id rest else (k, v) :: eraseKey id rest

/-- Python-dict assignment `self.results[id] = response`: the new binding
shadows (replaces) any previous binding of the same key. -/
def publish (id : Nat) (outc : Outcome ε ρ) (reg : Registry ε ρ) : Registry ε ρ :=
  (id, outc) :: eraseKey id reg

/-- The `try: response = self._make_request(...) except Exception as e:
response = e` body of the worker loop: a raising transport call is captured
as a `failure` outcome, never escapes. -/
def runTransport (transport : μ → π → Except ε ρ) (m : μ) (p : π) : Outcome ε ρ :=
  match transport m p with
  | .ok r => .success r
  | .error e => .failure e

/-- A queued request `(id, args, kwargs)` as put by `make_request` line 44. -/
structure Request (μ π : Type) : Type where
  id : Nat
  method : μ
  params : π
deriving DecidableEq, Repr

/-- `BaseClient.process_requests`: the worker dequeues one request at a time
and publishes its outcome into the registry; here the whole (finite) content
of the queue is processed in FIFO order. -/
def process_requests (transport : μ → π → Except ε ρ) :
    List (Request μ π) → Registry ε ρ → Registry ε ρ
  | [], reg => reg
  | r :: rest, reg =>
      process_requests transport rest (publish r.id (runTransport transport r.method r.params) reg)

/-- The polling loop of `make_request` (async branch, lines 46-53).
Each element `(t, reg)` of the trace is one loop iteration: `t` is the value
`time.time()` reads at the `while` condition and `reg` the registry snapshot
seen by the `request_id in self.results` test (the worker publishes
concurrently, so snapshots may differ between iterations).  The result also
carries the registry left behind and the clock reading of the final
iteration; `none` means the trace ended with the loop still running. -/
def pollLoop (timeoutv start id : Nat) :
    List (Nat × Registry ε ρ) → Option (MRResult ε ρ × Registry ε ρ × Nat)
  | [] => none
  | (t, reg) :: rest =>
      if t - start < timeoutv then
        match lookupReg id reg with
        | some outc => some (MRResult.ofOutcome outc, eraseKey id reg, t)
        | none => pollLoop timeoutv start id rest
      else
        some (.timeoutErr id, reg, t)

/-- The asynchronous path of `make_request` for a single request against a
deterministic transport stub, under the schedule in which the worker has
dequeued the request and published its outcome before the façade's first
poll: enqueue `(id, m, p)`, worker runs `_make_request` under `try/except`
and publishes, the façade polls the registry. -/
def make_request_async (transport : μ → π → Except ε ρ) (timeoutv id : Nat)
    (m : μ) (p : π) : Option (MRResult ε ρ × Registry ε ρ × Nat) :=
  pollLoop timeoutv 0 id [(0, publish id (runTransport transport m p) [])]

/-! ### Registry lemmas -/

theorem lookup_eraseKey_self (id : Nat) (reg : Registry ε ρ) :
    lookupReg id (eraseKey id reg) = none := by
  induction reg with
  | nil => rfl
  | cons p rest ih =>
      rcases p with ⟨k, v⟩
      by_cases h : k = id
      · simpa [eraseKey, h] using ih
      · simpa [eraseKey, h, lookupReg] using ih

theorem lookup_eraseKey_ne (id id' : Nat) (reg : Registry ε ρ) (h : id ≠ id') :
    lookupReg id (eraseKey id' reg) = lookupReg id reg := by
  induction reg with
  | nil => rfl
  | cons p rest ih =>
      rcases p with ⟨k, v⟩
      by_cases hp : k = id'
      · subst hp
        simp [eraseKey, lookupReg, Ne.symm h, ih]
      · simp [eraseKey, hp, lookupReg, ih]

theorem lookup_publish_self (id : Nat) (outc : Outcome ε ρ) (reg : Registry ε ρ) :
    lookupReg id (publish id outc reg) = some outc := by
  simp [publish, lookupReg]

theorem lookup_publish_ne (id id' : Nat) (outc : Outcome ε ρ) (reg : Registry ε ρ)
    (h : id ≠ id') :
    lookupReg id (publish id' outc reg) = lookupReg id reg := by
  simp [publish, lookupReg, Ne.symm h, lookup_eraseKey_ne id id' reg h]

/-- Once the registry holds an entry for `id` and no later request reuses the
id, running the worker over the remaining queue leaves that entry intact. -/
theorem lookup_process_requests_untouched (transport : μ → π → Except ε ρ)
    (queue : List (Request μ π)) (reg : Registry ε ρ) (id : Nat)
    (hid : ∀ q ∈ queue, q.id ≠ id) :
    lookupReg id (process_requests transport queue reg) = lookupReg id reg := by
  induction queue generalizing reg with
  | nil => rfl
  | cons q rest ih =>
      have hq : q.id ≠ id := hid q (List.mem_cons_self q rest)
      have hrest : ∀ q' ∈ rest, q'.id ≠ id := fun q' hq' => hid q' (List.mem_cons_of_mem q hq')
      rw [process_requests, ih _ hrest,
        lookup_publish_ne id q.id _ reg (fun h => hq h.symm)]

/-- Every request in the queue gets its outcome published under its own id
(given that correlation ids are not reused, which `uuid.uuid4()` guarantees). -/
theorem lookup_process_requests_mem (transport : μ → π → Except ε ρ)
    (queue : List (Request μ π)) (reg : Registry ε ρ) (r : Request μ π)
    (hmem : r ∈ queue) (hnodup : (queue.map Request.id).Nodup) :
    lookupReg r.id (process_requests transport queue reg)
      = some (runTransport transport r.method r.params) := by
  induction queue generalizing reg with
  | nil => cases hmem
  | cons q rest ih =>
      rw [List.map_cons, List.nodup_cons] at hnodup
      rcases List.mem_cons.1 hmem with hq | hmem'
      · subst hq
        have hfresh : ∀ q' ∈ rest, q'.id ≠ r.id := by
          intro q' hq' hcontra
          exact hnodup.1 (hcontra ▸ List.mem_map_of_mem Request.id hq')
        rw [process_requests, lookup_process_requests_untouched transport rest _ r.id hfresh,
          lookup_publish_self]
      · exact ih _ hmem' hnodup.2

/-- C2: a transport exception raised while serving a dequeued request is
caught by the worker and published as a `Failure` outcome under that
request's id, and the worker keeps processing the remaining requests of the
queue: every other queued request still gets its own outcome published.  A
per-request transport failure never terminates the worker loop. -/
theorem worker_survives_transport_failure (transport : μ → π → Except ε ρ)
    (queue : List (Request μ π)) (reg : Registry ε ρ) (r r' : Request μ π) (e : ε)
    (hmem : r ∈ queue) (hmem' : r' ∈ queue)
    (hnodup : (queue.map Request.id).Nodup)
    (hfail : transport r.method r.params = .error e) :
    lookupReg r.id (process_requests transport queue reg) = some (.failure e)
      ∧ lookupReg r'.id (process_requests transport queue reg)
          = some (runTransport transport r'.method r'.params) := by
  refine ⟨?_, lookup_process_requests_mem transport queue reg r' hmem' hnodup⟩
  rw [lookup_process_requests_mem transport queue reg r hmem hnodup, runTransport, hfail]

/-- Witness for `worker_survives_transport_failure`: a queue of two requests
whose first one makes the transport raise; the second is still served. -/
theorem worker_survives_transport_failure_witness :
    lookupReg 1 (process_requests (fun m (_ : Nat) => if m = 0 then Except.error 99 else Except.ok m)
        [⟨1, 0, 0⟩, ⟨2, 5, 0⟩] []) = some (.failure 99)
      ∧ lookupReg 2 (process_requests (fun m (_ : Nat) => if m = 0 then Except.error 99 else Except.ok m)
        [⟨1, 0, 0⟩, ⟨2, 5, 0⟩] [])
          = some (runTransport (fun m (_ : Nat) => if m = 0 then Except.error 99 else Except.ok m) 5 0) :=
  worker_survives_transport_failure _ [⟨1, 0, 0⟩, ⟨2, 5, 0⟩] [] ⟨1, 0, 0⟩ ⟨2, 5, 0⟩ 99
    (by decide) (by decide) (by decide) rfl

/-- C1: against a deterministic transport stub, the asynchronous path of
`make_request` (enqueue, worker call, publish, poll, consume) returns the
same value a direct synchronous `_make_request` call would return — a
returned value comes back as the same value, a raised exception is re-raised
as the same exception. -/
theorem make_request_async_eq_sync (transport : μ → π → Except ε ρ)
    (timeoutv id : Nat) (m : μ) (p : π) (htimeout : 0 < timeoutv) :
    make_request_async transport timeoutv id m p
      = some (MRResult.ofExcept (transport m p), [], 0) := by
  cases h : transport m p <;>
    simp [make_request_async, pollLoop, publish, eraseKey, lookupReg, htimeout,
      runTransport, MRResult.ofOutcome, MRResult.ofExcept, h]

/-- Witness for `make_request_async_eq_sync` at a concrete stub. -/
theorem make_request_async_eq_sync_witness :
    make_request_async (fun (m p : Nat) => if m = 0 then Except.ok (p + 1) else Except.error 7)
        10 5 0 41
      = some (MRResult.ofExcept ((fun (m p : Nat) => if m = 0 then Except.ok (p + 1) else Except.error 7) 0 41), [], 0) :=
  make_request_async_eq_sync _ 10 5 0 41 (by decide)

/-- C3: if, at some poll iteration before the timeout, the registry holds the
outcome for the caller's correlation id (all earlier iterations being in time
and empty for that id), `make_request` consumes it: a `success` outcome is
returned unwrapped and a `failure` outcome re-raises the very exception
object the worker captured, not a wrapped or new one. -/
theorem make_request_consumes_outcome (timeoutv start id t : Nat)
    (pre rest : List (Nat × Registry ε ρ)) (reg : Registry ε ρ) (outc : Outcome ε ρ)
    (hpre : ∀ x ∈ pre, x.1 - start < timeoutv ∧ lookupReg id x.2 = none)
    (ht : t - start < timeoutv)
    (hreg : lookupReg id reg = some outc) :
    pollLoop timeoutv start id (pre ++ (t, reg) :: rest)
      = some ((match outc with
               | Outcome.success v => MRResult.ok v
               | Outcome.failure e => MRResult.raised e), eraseKey id reg, t) := by
  induction pre with
  | nil =>
      cases outc <;> simp [pollLoop, ht, hreg, MRResult.ofOutcome]
  | cons x pre' ih =>
      rcases x with ⟨t', reg'⟩
      have hx := hpre (t', reg') (List.mem_cons_self _ _)
      rw [List.cons_append, pollLoop]
      simp only [hx.1, if_pos, hx.2]
      exact ih (fun y hy => hpre y (List.mem_cons_of_mem _ hy))

/-- Witness for `make_request_consumes_outcome`: one empty poll, then the
failure outcome appears and is re-raised. -/
theorem make_request_consumes_outcome_witness :
    pollLoop 10 0 5 ([(0, ([] : Registry Nat Nat))] ++ (1, [(5, Outcome.failure 9)]) :: [])
      = some ((match (Outcome.failure 9 : Outcome Nat Nat) with
               | Outcome.success v => MRResult.ok v
               | Outcome.failure e => MRResult.raised e), eraseKey 5 [(5, Outcome.failure 9)], 1) :=
  make_request_consumes_outcome 10 0 5 1 [(0, [])] [] [(5, Outcome.failure 9)]
    (Outcome.failure 9) (by decide) (by decide) rfl

/-- C4: when the polling loop of `make_request` gives up, the error it raises
names the caller's own correlation id, and the clock reading at the raise
shows an elapsed time of at least the configured timeout (for a clock that
never reads below `start`, the raise happens no earlier than
`start + timeout`). -/
theorem make_request_timeout_late (timeoutv start id j t : Nat)
    (trace : List (Nat × Registry ε ρ)) (reg : Registry ε ρ)
    (h : pollLoop timeoutv start id trace = some (.timeoutErr j, reg, t)) :
    j = id ∧ timeoutv ≤ t - start ∧ (start ≤ t → start + timeoutv ≤ t) := by
  induction trace with
  | nil => simp [pollLoop] at h
  | cons x rest ih =>
      rcases x with ⟨t', reg'⟩
      by_cases htime : t' - start < timeoutv
      · cases hl : lookupReg id reg' with
        | some outc =>
            rw [pollLoop] at h
            simp only [htime, if_pos, hl] at h
            cases outc <;> simp [MRResult.ofOutcome] at h
        | none =>
            rw [pollLoop] at h
            simp only [htime, if_pos, hl] at h
            exact ih h
      · rw [pollLoop] at h
        simp only [htime, if_neg, not_false_iff, Option.some.injEq, Prod.mk.injEq,
          MRResult.timeoutErr.injEq] at h
        obtain ⟨h1, -, h3⟩ := h
        subst h3
        exact ⟨h1.symm, by omega, fun hst => by omega⟩

/-- Witness for `make_request_timeout_late`: one iteration whose clock
reading already exceeds the timeout. -/
theorem make_request_timeout_late_witness :
    3 = 3 ∧ 10 ≤ 50 - 0 ∧ (0 ≤ 50 → 0 + 10 ≤ 50) :=
  make_request_timeout_late (ε := Nat) (ρ := Nat) 10 0 3 3 50 [(50, [])] [] (by decide)

/-- C5: whenever `make_request` consumes an outcome (any non-timeout result),
the `results.pop(request_id)` removed the entry: the registry left behind
holds no entry for that correlation id, so a second lookup of the same id
cannot observe a stale outcome. -/
theorem registry_consumed_at_most_once (timeoutv start id t : Nat)
    (trace : List (Nat × Registry ε ρ)) (res : MRResult ε ρ) (reg' : Registry ε ρ)
    (h : pollLoop timeoutv start id trace = some (res, reg', t))
    (hres : ∀ j, res ≠ .timeoutErr j) :
    lookupReg id reg' = none := by
  induction trace with
  | nil => simp [pollLoop] at h
  | cons x rest ih =>
      rcases x with ⟨t', reg''⟩
      by_cases htime : t' - start < timeoutv
      · cases hl : lookupReg id reg'' with
        | some outc =>
            rw [pollLoop] at h
            simp only [htime, if_pos, hl, Option.some.injEq, Prod.mk.injEq] at h
            obtain ⟨-, h2, -⟩ := h
            rw [← h2]
            exact lookup_eraseKey_self id reg''
        | none =>
            rw [pollLoop] at h
            simp only [htime, if_pos, hl] at h
            exact ih h
      · rw [pollLoop] at h
        simp only [htime, if_neg, not_false_iff, Option.some.injEq, Prod.mk.injEq] at h
        exact absurd h.1.symm (hres id)

/-- Witness for `registry_consumed_at_most_once`: the outcome for id 4 is
consumed on the first poll; the registry afterwards has no entry for 4. -/
theorem registry_consumed_at_most_once_witness :
    lookupReg 4 (eraseKey 4 [(4, Outcome.success 7)] : Registry Nat Nat) = none :=
  registry_consumed_at_most_once 10 0 4 0 [(0, [(4, Outcome.success 7)])]
    (MRResult.ok 7) (eraseKey 4 [(4, Outcome.success 7)]) (by decide)
    (fun j => by simp)

/-! ### Polling waiters (`utils.py`) -/

/-- The `ValueError`s raised by the two polling waiters of `utils.py`:
`ValueError("Did not reach block")` and
`ValueError("Could not get transaction receipt")`. -/
inductive WaitErr : Type where
  | didNotReachBlock
  | noTransactionReceipt
deriving DecidableEq, Repr

/-- `wait_for_block` from `utils.py`.  `get_block_number` is the client stub,
fed the number of height calls already made (so successive calls can observe
different heights); `get_block_by_number` is the block-fetch stub.  Each
element of `clocks` is the `time.time()` reading of one `while` condition
check; `k` counts `get_block_number` calls made so far.  The result carries
the total number of height calls issued; `none` means the clock trace ended
with the loop still running. -/
def wait_for_block (get_block_number : Nat → Nat) (get_block_by_number : Nat → β)
    (block_number start max_wait : Nat) :
    List Nat → Nat → Option (Except WaitErr β × Nat)
  | [], _ => none
  | t :: rest, k =>
      if t < start + max_wait then
        if block_number ≤ get_block_number k then
          some (.ok (get_block_by_number block_number), k + 1)
        else
          wait_for_block get_block_number get_block_by_number block_number start max_wait
            rest (k + 1)
      else
        some (.error .didNotReachBlock, k)

/-- `wait_for_transaction` from `utils.py`.  `get_transaction_receipt` is the
client stub fed the number of receipt calls already made; each element of
`clocks` is the `time.time()` reading of one `elif time.time() > start +
max_wait` check — which the code reaches only after a failed attempt, so the
trace is consumed only on failed attempts.  `k` counts receipt calls made so
far; the result carries the total number of receipt calls issued. -/
def wait_for_transaction (get_transaction_receipt : Nat → Option ρ)
    (start max_wait : Nat) : List Nat → Nat → Option (Except WaitErr ρ × Nat)
  | [], k =>
      match get_transaction_receipt k with
      | some r => some (.ok r, k + 1)
      | none => none
  | t :: rest, k =>
      match get_transaction_receipt k with
      | some r => some (.ok r, k + 1)
      | none =>
          if start + max_wait < t then some (.error .noTransactionReceipt, k + 1)
          else wait_for_transaction get_transaction_receipt start max_wait rest (k + 1)

/-- C6: `wait_for_block` (i) against the stub returning heights 90, 95, 100
with target 100 and budget 60 returns the fetched block 100 after exactly
three height calls — no fourth call is issued; (ii) checks its deadline
before each retry and, once the observed height reaches the target, returns
the fully fetched block at the target height; (iii) against a stub whose
height never reaches the target, fails with the deadline error once a clock
reading reaches `start + max_wait`. -/
theorem wait_for_block_spec (fetch : Nat → β) :
    (wait_for_block (fun k => if k = 0 then 90 else if k = 1 then 95 else 100) fetch
        100 0 60 [0, 5, 10] 0 = some (.ok (fetch 100), 3))
    ∧ (∀ (heights : Nat → Nat) (target start max_wait t k : Nat) (rest : List Nat),
        t < start + max_wait → target ≤ heights k →
        wait_for_block heights fetch target start max_wait (t :: rest) k
          = some (.ok (fetch target), k + 1))
    ∧ (∀ (heights : Nat → Nat) (target start max_wait : Nat) (clocks : List Nat) (k : Nat),
        (∀ j, heights j < target) → (∃ t ∈ clocks, start + max_wait ≤ t) →
        ∃ n, wait_for_block heights fetch target start max_wait clocks k
          = some (.error .didNotReachBlock, n)) := by
  refine ⟨by norm_num [wait_for_block], ?_, ?_⟩
  · intro heights target start max_wait t k rest ht hh
    rw [wait_for_block, if_pos ht, if_pos hh]
  · intro heights target start max_wait clocks
    induction clocks with
    | nil => intro k _ hex; simp at hex
    | cons t rest ih =>
        intro k hlow hex
        by_cases ht : t < start + max_wait
        · have hh : ¬ target ≤ heights k := not_le.2 (hlow k)
          rw [wait_for_block, if_pos ht, if_neg hh]
          refine ih (k + 1) hlow ?_
          rcases hex with ⟨t', ht', hge⟩
          rcases List.mem_cons.1 ht' with rfl | hmem
          · omega
          · exact ⟨t', hmem, hge⟩
        · exact ⟨k, by rw [wait_for_block, if_neg ht]⟩

/-- Witness for `wait_for_block_spec`: the three parts at concrete stubs. -/
theorem wait_for_block_spec_witness :
    (wait_for_block (fun k => if k = 0 then 90 else if k = 1 then 95 else 100) (fun n => n)
        100 0 60 [0, 5, 10] 0 = some (.ok 100, 3))
    ∧ (wait_for_block (fun _ => 100) (fun n => n) 100 0 60 [0] 0 = some (.ok 100, 1))
    ∧ (∃ n, wait_for_block (fun _ => 0) (fun n => n) 100 0 60 [60] 0
        = some (.error .didNotReachBlock, n)) :=
  ⟨(wait_for_block_spec (fun n => n)).1,
   (wait_for_block_spec (fun n => n)).2.1 (fun _ => 100) 100 0 60 0 0 [] (by decide) (by decide),
   (wait_for_block_spec (fun n => n)).2.2 (fun _ => 0) 100 0 60 [60] 0 (by intro _; norm_num)
     ⟨60, by decide, by decide⟩⟩

/-- The first non-absent receipt is returned: if the first `j` receipt calls
return `None` and the `(j+1)`-th returns a receipt, and no clock reading of a
failed attempt strictly exceeds the deadline, `wait_for_transaction` returns
that receipt after exactly `j + 1` calls. -/
theorem wait_for_transaction_first_receipt (get_receipt : Nat → Option ρ)
    (start max_wait : Nat) (r : ρ) :
    ∀ (j : Nat) (clocks : List Nat) (k : Nat),
      (∀ i, i < j → get_receipt (k + i) = none) →
      get_receipt (k + j) = some r →
      (∀ t ∈ clocks.take j, t ≤ start + max_wait) →
      j ≤ clocks.length →
      wait_for_transaction get_receipt start max_wait clocks k = some (.ok r, k + j + 1) := by
  intro j
  induction j with
  | zero =>
      intro clocks k _ hj _ _
      simp only [Nat.add_zero] at hj
      cases clocks <;> simp [wait_for_transaction, hj]
  | succ j ih =>
      intro clocks k hnone hj htake hlen
      have hk : get_receipt k = none := by simpa using hnone 0 (Nat.succ_pos j)
      cases clocks with
      | nil => simp at hlen
      | cons t rest =>
          have ht : ¬ start + max_wait < t := by
            have := htake t (by simp [List.take])
            omega
          have hrec := ih rest (k + 1)
            (fun i hi => by
              have := hnone (i + 1) (Nat.succ_lt_succ hi)
              simpa [Nat.add_assoc, Nat.add_comm 1 i] using this)
            (by simpa [Nat.add_assoc, Nat.add_comm 1 j] using hj)
            (fun t' ht' => htake t' (by simp [List.take, ht']))
            (by simpa using hlen)
          have harith : k + 1 + j + 1 = k + (j + 1) + 1 := by omega
          rw [wait_for_transaction, hk]
          simp only [if_neg ht]
          rw [hrec, harith]

/-- C7: `wait_for_transaction` (i) returns a receipt found by the current
attempt immediately, whatever the clock says — the deadline check happens
only after a failed attempt, so an attempt can run (and succeed) past the
nominal deadline; (ii) returns the first non-absent receipt when no failed
attempt observes a clock strictly past the deadline; (iii) against a stub
that always returns `None`, fails with the receipt-not-found error once a
failed attempt observes a clock reading strictly past `start + max_wait`. -/
theorem wait_for_transaction_spec :
    (∀ (get_receipt : Nat → Option ρ) (start max_wait k : Nat) (clocks : List Nat) (r : ρ),
        get_receipt k = some r →
        wait_for_transaction get_receipt start max_wait clocks k = some (.ok r, k + 1))
    ∧ (∀ (get_receipt : Nat → Option ρ) (start max_wait j : Nat) (clocks : List Nat) (r : ρ),
        (∀ i, i < j → get_receipt i = none) → get_receipt j = some r →
        (∀ t ∈ clocks.take j, t ≤ start + max_wait) → j ≤ clocks.length →
        wait_for_transaction get_receipt start max_wait clocks 0 = some (.ok r, j + 1))
    ∧ (∀ (get_receipt : Nat → Option ρ) (start max_wait : Nat) (clocks : List Nat) (k : Nat),
        (∀ i, get_receipt i = none) → (∃ t ∈ clocks, start + max_wait < t) →
        ∃ n, wait_for_transaction get_receipt start max_wait clocks k
          = some (.error .noTransactionReceipt, n)) := by
  refine ⟨?_, ?_, ?_⟩
  · intro get_receipt start max_wait k clocks r hk
    cases clocks <;> simp [wait_for_transaction, hk]
  · intro get_receipt start max_wait j clocks r hnone hj htake hlen
    simpa using wait_for_transaction_first_receipt get_receipt start max_wait r j clocks 0
      (fun i hi => by simpa using hnone i hi) (by simpa using hj) htake hlen
  · intro get_receipt start max_wait clocks
    induction clocks with
    | nil => intro k _ hex; simp at hex
    | cons t rest ih =>
        intro k habsent hex
        by_cases ht : start + max_wait < t
        · exact ⟨k + 1, by simp [wait_for_transaction, habsent k, ht]⟩
        · rw [wait_for_transaction, habsent k]
          simp only [if_neg ht]
          refine ih (k + 1) habsent ?_
          rcases hex with ⟨t', ht', hgt⟩
          rcases List.mem_cons.1 ht' with rfl | hmem
          · omega
          · exact ⟨t', hmem, hgt⟩

/-- Witness for `wait_for_transaction_spec`: the three parts at concrete
stubs — a receipt available with an empty clock budget is still returned, the
stub absent three times then present returns that receipt after four calls,
and the always-absent stub hits the deadline error. -/
theorem wait_for_transaction_spec_witness :
    (wait_for_transaction (fun _ => some (42 : Nat)) 0 60 [] 0 = some (.ok 42, 1))
    ∧ (wait_for_transaction (fun k => if k < 3 then none else some (42 : Nat)) 0 60 [1, 2, 3] 0
        = some (.ok 42, 4))
    ∧ (∃ n, wait_for_transaction (fun _ => (none : Option Nat)) 0 60 [61] 0
        = some (.error .noTransactionReceipt, n)) :=
  ⟨wait_for_transaction_spec.1 (fun _ => some 42) 0 60 0 [] 42 rfl,
   wait_for_transaction_spec.2.1 (fun k => if k < 3 then none else some 42) 0 60 3 [1, 2, 3] 42
     (by decide) (by decide) (by decide) (by decide),
   wait_for_transaction_spec.2.2 (fun _ => none) 0 60 [61] 0 (fun _ => rfl)
     ⟨61, by decide, by decide⟩⟩

/-! ### `get_transaction_params` (`utils.py`) -/

/-- Python's `hex(n)` for a non-negative integer: `"0x"` followed by the
lowercase base-16 digits. -/
def hexStr (n : Nat) : String :=
  "0x" ++ String.mk (Nat.toDigits 16 n)

/-- Python's `str.rstrip('L')`: drop trailing `'L'` characters (a Python 2
long-integer suffix artifact). -/
def rstripL (s : String) : String :=
  String.mk (s.data.reverse.dropWhile (fun c => c == 'L')).reverse

/-- `if x is not None: params[key] = x`: the conditional insertion used for
the optional transaction fields. -/
def optEntry (key : String) : Option String → List (String × String)
  | some v => [(key, v)]
  | none => []

/-- `get_transaction_params` from `utils.py`, with the params dict as an
association list in insertion order.  `.error` models the raised
`ValueError`s; gas, gas price and value are hex-encoded exactly as the code
does (`hex(gas)`, `hex(gas_price)`, `hex(value).rstrip('L')`). -/
def get_transaction_params (_from _to : Option String) (gas gas_price value : Option Nat)
    (data : Option String) : Except String (List (String × String)) :=
  match _from with
  | none => .error "No default from address specified"
  | some f =>
      if _to = none ∧ data = none then
        .error "A `to` address is only optional for contract creation"
      else
        .ok (("from", f) ::
          (optEntry "to" _to ++ optEntry "gas" (gas.map hexStr)
            ++ optEntry "gasPrice" (gas_price.map hexStr)
            ++ optEntry "value" (value.map (fun v => rstripL (hexStr v)))
            ++ optEntry "data" data))

theorem mem_optEntry (key k v : String) (o : Option String) :
    (k, v) ∈ optEntry key o ↔ k = key ∧ o = some v := by
  cases o with
  | none => simp [optEntry]
  | some a =>
      simp only [optEntry, List.mem_singleton, Prod.mk.injEq, Option.some.injEq]
      exact ⟨fun ⟨h1, h2⟩ => ⟨h1, h2.symm⟩, fun ⟨h1, h2⟩ => ⟨h1, h2.symm⟩⟩

/-- C10: `get_transaction_params` raises `ValueError` whenever `_from` is
`None`; raises `ValueError` whenever `to` and `data` are both `None`; and for
every input satisfying both preconditions returns a params dict that contains
`'from'`, contains `'to'` exactly when `to` is given, and hex-encodes `gas`,
`gas_price` and `value` whenever they are not `None`. -/
theorem get_transaction_params_spec :
    (∀ (_to : Option String) (gas gas_price value : Option Nat) (data : Option String),
        get_transaction_params none _to gas gas_price value data
          = .error "No default from address specified")
    ∧ (∀ (f : String) (gas gas_price value : Option Nat),
        get_transaction_params (some f) none gas gas_price value none
          = .error "A `to` address is only optional for contract creation")
    ∧ (∀ (f : String) (_to : Option String) (gas gas_price value : Option Nat)
          (data : Option String),
        ¬(_to = none ∧ data = none) →
        ∃ ps, get_transaction_params (some f) _to gas gas_price value data = .ok ps
          ∧ ("from", f) ∈ ps
          ∧ ((∃ v, ("to", v) ∈ ps) ↔ ∃ tv, _to = some tv)
          ∧ (∀ g, gas = some g → ("gas", hexStr g) ∈ ps)
          ∧ (∀ g, gas_price = some g → ("gasPrice", hexStr g) ∈ ps)
          ∧ (∀ v, value = some v → ("value", rstripL (hexStr v)) ∈ ps)) := by
  refine ⟨fun _to gas gas_price value data => rfl, fun f gas gas_price value => rfl, ?_⟩
  intro f _to gas gas_price value data hne
  refine ⟨("from", f) ::
      (optEntry "to" _to ++ optEntry "gas" (gas.map hexStr)
        ++ optEntry "gasPrice" (gas_price.map hexStr)
        ++ optEntry "value" (value.map (fun v => rstripL (hexStr v)))
        ++ optEntry "data" data),
    by simp [get_transaction_params, hne], List.mem_cons_self _ _, ?_, ?_, ?_, ?_⟩
  · cases _to <;> cases gas <;> cases gas_price <;> cases value <;> cases data <;>
      simp [optEntry]
  · rintro g rfl
    cases _to <;> simp [optEntry]
  · rintro g rfl
    cases _to <;> cases gas <;> simp [optEntry]
  · rintro v rfl
    cases _to <;> cases gas <;> cases gas_price <;> simp [optEntry]

/-- Witness for `get_transaction_params_spec` at concrete inputs. -/
theorem get_transaction_params_spec_witness :
    (get_transaction_params none (some "0xyou") (some 5) (some 2) (some 0) none
        = .error "No default from address specified")
    ∧ (get_transaction_params (some "0xme") none (some 5) (some 2) (some 0) none
        = .error "A `to` address is only optional for contract creation")
    ∧ (∃ ps, get_transaction_params (some "0xme") (some "0xyou") (some 5) (some 2) (some 0) none
          = .ok ps
        ∧ ("from", "0xme") ∈ ps
        ∧ ((∃ v, ("to", v) ∈ ps) ↔ ∃ tv, (some "0xyou" : Option String) = some tv)
        ∧ (∀ g, (some 5 : Option Nat) = some g → ("gas", hexStr g) ∈ ps)
        ∧ (∀ g, (some 2 : Option Nat) = some g → ("gasPrice", hexStr g) ∈ ps)
        ∧ (∀ v, (some 0 : Option Nat) = some v → ("value", rstripL (hexStr v)) ∈ ps)) :=
  ⟨get_transaction_params_spec.1 (some "0xyou") (some 5) (some 2) (some 0) none,
   get_transaction_params_spec.2.1 "0xme" (some 5) (some 2) (some 0),
   get_transaction_params_spec.2.2 "0xme" (some "0xyou") (some 5) (some 2) (some 0) none
     (by simp)⟩

/-! ### Coinbase cache (`JSONRPCBaseClient.default_from_address`) -/

/-- The cache fields of `JSONRPCBaseClient`: `_coinbase_cache` (the cached
address), `_coinbase_cache_til` (the TTL timestamp — note that no statement
anywhere in the code assigns it a value other than `None`), and a count of
`get_coinbase` RPC calls issued so far (to observe whether a call makes a
fresh request). -/
structure CoinbaseState : Type where
  cache : Option String
  cacheTil : Option Nat
  rpcCalls : Nat
deriving DecidableEq, Repr

/-- The `TypeError` Python raises for `time.time - self._coinbase_cache_til`:
the code subtracts a number from the function object `time.time` (it never
calls it), which is unsupported. -/
inductive PyError : Type where
  | typeError
deriving DecidableEq, Repr

/-- `JSONRPCBaseClient.default_from_address` with its exact control flow:

* if `_coinbase_cache_til is not None`, the guard evaluates
  `time.time - self._coinbase_cache_til > 30`, which raises `TypeError`
  before anything else can happen (and this branch is in fact dead, because
  `_coinbase_cache_til` is only ever assigned `None`);
* otherwise, if `_coinbase_cache is None` the coinbase is fetched with a
  fresh `get_coinbase()` RPC call and cached — but no timestamp is recorded;
* otherwise the cached value is returned unchanged, with no RPC call and no
  reference to any clock. -/
def default_from_address (get_coinbase : Nat → String) (st : CoinbaseState) :
    Except PyError (String × CoinbaseState) :=
  match st.cacheTil with
  | some _ => .error .typeError
  | none =>
      match st.cache with
      | some a => .ok (a, st)
      | none =>
          let a := get_coinbase st.rpcCalls
          .ok (a, { cache := some a, cacheTil := none, rpcCalls := st.rpcCalls + 1 })

/-- C8 is violated by the code (code bug): the coinbase cache never expires.
The first call on a fresh client issues one `get_coinbase` RPC and caches the
address, but stores no timestamp (`_coinbase_cache_til` stays `None`); hence
every later call — arbitrarily much later, the code consults no clock in this
state — returns the cached value with no fresh RPC call (the state, including
the RPC call count, is unchanged).  Moreover, in the hypothetical state the
TTL check was written for (`_coinbase_cache_til` set), the guard
`time.time - self._coinbase_cache_til > 30` would raise `TypeError` instead
of computing an age, because `time.time` is not called. -/
theorem coinbase_cache_never_expires :
    default_from_address (fun _ => "0xc0ffee") ⟨none, none, 0⟩
        = .ok ("0xc0ffee", ⟨some "0xc0ffee", none, 1⟩)
      ∧ default_from_address (fun _ => "0xc0ffee") ⟨some "0xc0ffee", none, 1⟩
        = .ok ("0xc0ffee", ⟨some "0xc0ffee", none, 1⟩)
      ∧ default_from_address (fun _ => "0xc0ffee") ⟨some "0xc0ffee", some 0, 1⟩
        = .error .typeError :=
  ⟨rfl, rfl, rfl⟩

/-! ### Concurrency: at most one transport call in flight in async mode -/

/-- Phase of one caller thread running `make_request`:
`ready` — about to call `make_request`; `polling` — asynchronous branch taken,
request enqueued, polling the registry; `syncCalling` — synchronous branch
taken, inside a direct `_make_request` transport call on the caller's own
thread; `finished` — `make_request` returned or raised. -/
inductive CallerPhase (μ π ε ρ : Type) : Type where
  | ready (m : μ) (p : π)
  | polling (id : Nat)
  | syncCalling (m : μ) (p : π)
  | finished (res : MRResult ε ρ)
deriving DecidableEq, Repr

/-- Whether this caller is currently inside a transport call. -/
def CallerPhase.inTransport : CallerPhase μ π ε ρ → Bool
  | .syncCalling _ _ => true
  | _ => false

/-- Phase of the single dispatch worker thread: blocked on
`request_queue.get()` or inside the `_make_request` transport call for the
dequeued request. -/
inductive WorkerPhase (μ π : Type) : Type where
  | idle
  | calling (r : Request μ π)
deriving DecidableEq, Repr

/-- Whether the worker is currently inside a transport call. -/
def WorkerPhase.inTransport : WorkerPhase μ π → Bool
  | .calling _ => true
  | .idle => false

/-- Global state of one client and its callers: the caller threads, the
request queue, the results registry, the worker thread, and the next fresh
correlation id. -/
structure SysState (μ π ε ρ : Type) : Type where
  callers : List (CallerPhase μ π ε ρ)
  queue : List (Request μ π)
  registry : Registry ε ρ
  worker : WorkerPhase μ π
  nextId : Nat
deriving DecidableEq, Repr

/-- Number of `_make_request` transport calls in flight: the worker's plus
those of callers running the synchronous branch. -/
def inFlight (s : SysState μ π ε ρ) : Nat :=
  (if s.worker.inTransport then 1 else 0) + s.callers.countP CallerPhase.inTransport

/-- Interleaving semantics of `BaseClient`.  Caller steps follow
`make_request`: in asynchronous mode a caller enqueues `(id, args, kwargs)`
and polls (it never touches the transport itself); in synchronous mode it
enters the transport call directly on its own thread.  Worker steps follow
`process_requests`: dequeue one request, run the transport call, publish the
outcome.  A polling caller consumes a published outcome, or gives up at its
timeout. -/
inductive Step (is_async : Bool) (transport : μ → π → Except ε ρ) :
    SysState μ π ε ρ → SysState μ π ε ρ → Prop where
  | submit_async (pre post : List (CallerPhase μ π ε ρ)) (m : μ) (p : π)
      (q : List (Request μ π)) (reg : Registry ε ρ) (w : WorkerPhase μ π) (n : Nat) :
      is_async = true →
      Step is_async transport
        ⟨pre ++ .ready m p :: post, q, reg, w, n⟩
        ⟨pre ++ .polling n :: post, q ++ [⟨n, m, p⟩], reg, w, n + 1⟩
  | submit_sync (pre post : List (CallerPhase μ π ε ρ)) (m : μ) (p : π)
      (q : List (Request μ π)) (reg : Registry ε ρ) (w : WorkerPhase μ π) (n : Nat) :
      is_async = false →
      Step is_async transport
        ⟨pre ++ .ready m p :: post, q, reg, w, n⟩
        ⟨pre ++ .syncCalling m p :: post, q, reg, w, n⟩
  | finish_sync (pre post : List (CallerPhase μ π ε ρ)) (m : μ) (p : π)
      (q : List (Request μ π)) (reg : Registry ε ρ) (w : WorkerPhase μ π) (n : Nat) :
      Step is_async transport
        ⟨pre ++ .syncCalling m p :: post, q, reg, w, n⟩
        ⟨pre ++ .finished (MRResult.ofExcept (transport m p)) :: post, q, reg, w, n⟩
  | consume (pre post : List (CallerPhase μ π ε ρ)) (id : Nat) (outc : Outcome ε ρ)
      (q : List (Request μ π)) (reg : Registry ε ρ) (w : WorkerPhase μ π) (n : Nat) :
      lookupReg id reg = some outc →
      Step is_async transport
        ⟨pre ++ .polling id :: post, q, reg, w, n⟩
        ⟨pre ++ .finished (MRResult.ofOutcome outc) :: post, q, eraseKey id reg, w, n⟩
  | give_up (pre post : List (CallerPhase μ π ε ρ)) (id : Nat)
      (q : List (Request μ π)) (reg : Registry ε ρ) (w : WorkerPhase μ π) (n : Nat) :
      Step is_async transport
        ⟨pre ++ .polling id :: post, q, reg, w, n⟩
        ⟨pre ++ .finished (.timeoutErr id) :: post, q, reg, w, n⟩
  | worker_dequeue (cs : List (CallerPhase μ π ε ρ)) (r : Request μ π)
      (q : List (Request μ π)) (reg : Registry ε ρ) (n : Nat) :
      Step is_async transport
        ⟨cs, r :: q, reg, .idle, n⟩
        ⟨cs, q, reg, .calling r, n⟩
  | worker_publish (cs : List (CallerPhase μ π ε ρ)) (r : Request μ π)
      (q : List (Request μ π)) (reg : Registry ε ρ) (n : Nat) :
      Step is_async transport
        ⟨cs, q, reg, .calling r, n⟩
        ⟨cs, q, publish r.id (runTransport transport r.method r.params) reg, .idle, n⟩

/-- Reachability under the interleaving semantics. -/
def Reachable (is_async : Bool) (transport : μ → π → Except ε ρ)
    (s₀ s : SysState μ π ε ρ) : Prop :=
  Relation.ReflTransGen (Step is_async transport) s₀ s

/-- Replacing the middle element of a caller list by one that is not in a
transport call preserves "no caller is in a transport call". -/
theorem mem_replace_mid {c new old : CallerPhase μ π ε ρ}
    {pre post : List (CallerPhase μ π ε ρ)}
    (h : ∀ x ∈ pre ++ old :: post, x.inTransport = false)
    (hc : c ∈ pre ++ new :: post)
    (hnew : new.inTransport = false) : c.inTransport = false := by
  rcases List.mem_append.1 hc with h1 | h1
  · exact h c (List.mem_append_left _ h1)
  · rcases List.mem_cons.1 h1 with rfl | h2
    · exact hnew
    · exact h c (List.mem_append_right _ (List.mem_cons_of_mem _ h2))

/-- In asynchronous mode, no step puts a caller inside a transport call:
the only step that does (`submit_sync`) requires synchronous mode. -/
theorem step_preserves_no_sync (transport : μ → π → Except ε ρ)
    (s s' : SysState μ π ε ρ) (hstep : Step true transport s s')
    (h : ∀ c ∈ s.callers, c.inTransport = false) :
    ∀ c ∈ s'.callers, c.inTransport = false := by
  cases hstep with
  | submit_async pre post m p q reg w n _ =>
      exact fun c hc => mem_replace_mid h hc rfl
  | submit_sync pre post m p q reg w n hfalse =>
      exact absurd hfalse (by simp)
  | finish_sync pre post m p q reg w n =>
      exact fun c hc => mem_replace_mid h hc rfl
  | consume pre post id outc q reg w n _ =>
      exact fun c hc => mem_replace_mid h hc rfl
  | give_up pre post id q reg w n =>
      exact fun c hc => mem_replace_mid h hc rfl
  | worker_dequeue cs r q reg n =>
      exact h
  | worker_publish cs r q reg n =>
      exact h

/-- C9: in asynchronous mode, at most one transport call is in flight at any
instant, under arbitrarily many concurrent callers: from any initial state
whose callers are not inside a transport call (e.g. all `ready`), every
reachable state has at most one in-flight transport call — the worker's. -/
theorem async_at_most_one_in_flight (transport : μ → π → Except ε ρ)
    (s₀ s : SysState μ π ε ρ)
    (h0 : ∀ c ∈ s₀.callers, c.inTransport = false)
    (hr : Reachable true transport s₀ s) :
    inFlight s ≤ 1 := by
  have hns : ∀ c ∈ s.callers, c.inTransport = false := by
    induction hr with
    | refl => exact h0
    | tail _ hstep ih => exact step_preserves_no_sync transport _ _ hstep ih
  have hcount : s.callers.countP CallerPhase.inTransport = 0 :=
    List.countP_eq_zero.2 (fun c hc => by simp [hns c hc])
  rw [inFlight, hcount]
  cases hw : s.worker.inTransport <;> simp

/-- Witness for `async_at_most_one_in_flight`: two callers, one of which has
submitted its request and whose request the worker has dequeued (the worker
is inside the transport call); the in-flight count of the reached state is
at most — in fact exactly — one. -/
theorem async_at_most_one_in_flight_witness :
    inFlight (⟨[CallerPhase.polling 0, CallerPhase.ready 1 1], [], [],
        WorkerPhase.calling ⟨0, 0, 0⟩, 1⟩ : SysState Nat Nat Nat Nat) ≤ 1 :=
  async_at_most_one_in_flight (fun _ _ => Except.ok 0)
    ⟨[CallerPhase.ready 0 0, CallerPhase.ready 1 1], [], [], WorkerPhase.idle, 0⟩ _
    (by decide)
    (Relation.ReflTransGen.tail
      (Relation.ReflTransGen.tail Relation.ReflTransGen.refl
        (Step.submit_async [] [CallerPhase.ready 1 1] 0 0 [] [] WorkerPhase.idle 0 rfl))
      (Step.worker_dequeue [CallerPhase.polling 0, CallerPhase.ready 1 1] ⟨0, 0, 0⟩ [] [] 1))
